import Mathlib

/-!
# Verification of the stock-market monitoring core

Shallow embedding of the monitoring cycle and session-aware alert
deduplication engine of the `stock_market` repository
(`src/stock/database.py`, `src/stock/analytics.py`, `src/stock/main.py`),
together with proofs about the embedded definitions.

Modelling conventions:
* prices are rationals (`ℚ`); machine floats are modelled exactly;
* instants are minutes since an arbitrary epoch (`Int` for datetimes,
  day length 1440); a timezone is a function from UTC instant to its
  UTC offset in minutes, which is what a tzdata-backed timezone provides;
* the SQL tables are lists of rows; SQL statements are translated into
  the corresponding list operations;
* Python exceptions are `Except PyErr`; a `try/except` block that
  swallows an exception is a `match` on the `Except` value;
* boolean-valued row predicates use `==`/`decide` so that everything
  evaluates by `decide`/`rfl` on concrete inputs.
-/

namespace StockMarket

/-- Python exception kinds relevant to the embedded code paths. -/
inductive PyErr where
  | zeroDivision
  | valueError
  | sqlError
deriving Repr, DecidableEq

/-! ## Data model: the four tables of `DatabaseManager._setup_tables` -/

/-- One row of `stock_daily` (`price_history`): a PricePoint.
Columns as in `_setup_tables`; the autoincrement `id` is not modelled
(no embedded operation reads it). -/
structure DailyRow where
  ticker : String
  date : Nat
  openPrice : Option ℚ
  high : Option ℚ
  low : Option ℚ
  close : Option ℚ
  adjClose : Option ℚ
  volume : Option Int
  fetchedAt : Int
deriving Repr, DecidableEq

/-- One row of `stock_latest`: the LatestQuote snapshot (primary key `ticker`). -/
structure LatestRow where
  ticker : String
  price : Option ℚ
  bid : Option ℚ
  ask : Option ℚ
  timestamp : Option Int
  fetchedAt : Int
deriving Repr, DecidableEq

/-- One row of `alert_history`: an AlertRecord of the dedup ledger. -/
structure AlertRow where
  ticker : String
  alertType : String
  currentPrice : ℚ
  averagePrice : ℚ
  absoluteDifference : ℚ
  percentDifference : ℚ
  sentAt : Int
deriving Repr, DecidableEq

/-- One row of `watchlist`. -/
structure WatchRow where
  ticker : String
  companyName : Option String
  sector : Option String
  notes : Option String
  addedAt : Int
  isActive : Bool
deriving Repr, DecidableEq

/-- The persistent store: the four logical tables. -/
structure DBState where
  stock_daily : List DailyRow
  stock_latest : List LatestRow
  alert_history : List AlertRow
  watchlist : List WatchRow
deriving Repr, DecidableEq

/-! ## A deterministic insertion sort (for `ORDER BY`) -/

/-- Insert `a` into `l` keeping elements for which `le a b` fails in front. -/
def insertSorted (le : α → α → Bool) (a : α) : List α → List α
  | [] => [a]
  | b :: bs => if le a b then a :: b :: bs else b :: insertSorted le a bs

/-- Insertion sort with boolean comparator `le` (true = "comes no later"). -/
def sortBy (le : α → α → Bool) : List α → List α
  | [] => []
  | a :: as => insertSorted le a (sortBy le as)

/-! ## Session Boundary Resolver

`StockAnalytics.check_alert_already_sent_today`, lines 36–53: compute the
current session's start instant.  `off` is the timezone (UTC instant ↦
offset in minutes, the `Europe/Vienna` lookup of `pytz`); `utcNow` is
`datetime.now(timezone.utc)` in minutes.

pytz semantics embedded faithfully:
* `utc_now.astimezone(vienna_tz)` yields a wall-clock datetime
  `utcNow + off utcNow` whose attached tzinfo carries the **fixed**
  offset `off utcNow` valid at that instant;
* `.replace(hour=9, minute=0, second=0, microsecond=0)` keeps the date
  and the attached tzinfo: wall clock `wall - wall % 1440 + 540`;
* `vienna_now.time() < market_open_vienna.time()` compares wall times:
  `wall % 1440 < 540`;
* `- timedelta(days=1)` is naive wall-clock arithmetic, the attached
  fixed offset is unchanged;
* `.astimezone(timezone.utc)` converts using the attached fixed offset.
-/
def sessionStartCode (off : Int → Int) (utcNow : Int) : Int :=
  let tzoff := off utcNow
  let wall := utcNow + tzoff
  let openWall := wall - wall % 1440 + 540
  let openWall2 := if wall % 1440 < 540 then openWall - 1440 else openWall
  openWall2 - tzoff

/-- The wall-clock reading of UTC instant `u` in timezone `off`. -/
def localWall (off : Int → Int) (u : Int) : Int := u + off u

/-! ## Alert Deduplication Ledger: query side

`StockAnalytics.check_alert_already_sent_today`.  `db = none` models
`self.db` being unavailable (returns `False`); `queryFails = true`
models the `except` branch around the `SELECT COUNT(*)` (database
error, returns `False`); otherwise the embedded query counts
`alert_history` rows with matching ticker, alert type and
`sent_at >= :market_open`. -/
def matchesAlert (t atype : String) (marketOpen : Int) (r : AlertRow) : Bool :=
  r.ticker == t && r.alertType == atype && decide (marketOpen ≤ r.sentAt)

def check_alert_already_sent_today (db : Option DBState) (queryFails : Bool)
    (off : Int → Int) (utcNow : Int) (t atype : String) : Bool :=
  match db with
  | Option.none => false
  | some s =>
    if queryFails then false
    else
      let marketOpen := sessionStartCode off utcNow
      decide (0 < s.alert_history.countP (matchesAlert t atype marketOpen))

/-! ## Price Store accessor: `DatabaseManager` operations

Connection management is out of scope: the embedded operations act on a
connected store.  `except SQLAlchemyError` branches that matter to a
claim are modelled through explicit failure flags. -/

/-- `REPLACE INTO stock_daily`: MySQL deletes every row that collides on
the unique key `(ticker, date)` and inserts the new row. -/
def replaceIntoDaily (rows : List DailyRow) (r : DailyRow) : List DailyRow :=
  rows.filter (fun q => !(q.ticker == r.ticker && q.date == r.date)) ++ [r]

/-- `DatabaseManager.insert_historical_data`: each record takes the
`ticker` argument as its ticker and is written with
`REPLACE INTO stock_daily`.  Returns `True` on the success path. -/
def insert_historical_data (db : DBState) (t : String) (data : List DailyRow) :
    Bool × DBState :=
  let records := data.map (fun r => { r with ticker := t })
  (true, { db with stock_daily := records.foldl replaceIntoDaily db.stock_daily })

/-- `DatabaseManager.update_latest_price`, success path of the SQL write:
`REPLACE INTO stock_latest` keyed on the primary key `ticker`. -/
def replaceIntoLatest (rows : List LatestRow) (r : LatestRow) : List LatestRow :=
  rows.filter (fun q => !(q.ticker == r.ticker)) ++ [r]

/-- A value held in the price dict fetched from the market-data
collaborator (Python is dynamically typed here). -/
inductive RawVal where
  | num (q : ℚ)
  | str (s : String)
  | noneV
deriving Repr, DecidableEq

/-- Python `float(v)`: numbers convert; a non-numeric string raises
`ValueError`; `None` raises `TypeError` (collapsed into `valueError`,
the distinction never matters to the embedded handlers). -/
def pyFloat : RawVal → Except PyErr ℚ
  | .num q => .ok q
  | .str _ => .error .valueError
  | .noneV => .error .valueError

/-- Python truthiness of a fetched value (`if price_data.get('bid')`). -/
def truthy : RawVal → Bool
  | .num q => !(q == 0)
  | .str s => !(s == "")
  | .noneV => false

/-- The price dict produced by `force_refresh_all_prices` /
`fetch_current_price` for one ticker. -/
structure PriceData where
  price : RawVal
  previousClose : RawVal
  bid : RawVal
  ask : RawVal
  timestamp : Option Int
deriving Repr, DecidableEq

/-- `DatabaseManager.update_latest_price`.  The record is built first —
`float(...)` conversions may raise, and only `SQLAlchemyError` is caught
by the surrounding handler, so a `ValueError` propagates to the caller.
`sqlErr` models `conn.execute` raising `SQLAlchemyError`: the handler
logs and returns `False`, leaving the store untouched.  `now` is
`datetime.utcnow()`. -/
def update_latest_price (db : DBState) (t : String) (pd : PriceData)
    (sqlErr : Bool) (now : Int) : Except PyErr (Bool × DBState) :=
  match pyFloat pd.price with
  | .error e => .error e
  | .ok price =>
    match (if truthy pd.bid then (pyFloat pd.bid).map some else .ok Option.none) with
    | .error e => .error e
    | .ok bid =>
      match (if truthy pd.ask then (pyFloat pd.ask).map some else .ok Option.none) with
      | .error e => .error e
      | .ok ask =>
        if sqlErr then .ok (false, db)
        else
          let latest := replaceIntoLatest db.stock_latest ⟨t, some price, bid, ask, pd.timestamp, now⟩
          .ok (true, { db with stock_latest := latest })

/-- The inner `SELECT` of `DatabaseManager.get_trading_day_averages`:
closes of the `days` most recent PricePoints of `t` with a non-null
close, ordered by date descending (`LIMIT :days`). -/
def selectRecentCloses (db : DBState) (t : String) (days : Nat) : List ℚ :=
  (((sortBy (fun a b => b.date ≤ a.date)
      (db.stock_daily.filter (fun r => r.ticker == t && r.close.isSome))).take days).filterMap
    (fun r => r.close))

/-- `DatabaseManager.get_trading_day_averages`: `AVG(close)` over the
inner select; SQL `AVG` over zero rows is `NULL`, which the Python code
maps to `None`. -/
def get_trading_day_averages (db : DBState) (t : String) (days : Nat) : Option ℚ :=
  let cs := selectRecentCloses db t days
  if cs.isEmpty then Option.none else some (cs.sum / cs.length)

/-- `DatabaseManager.get_current_price`: the `stock_latest` row of `t`,
`None` when the row is missing or its price is `NULL`. -/
def get_current_price (db : DBState) (t : String) : Option ℚ :=
  match db.stock_latest.find? (fun r => r.ticker == t) with
  | some r => r.price
  | Option.none => Option.none

/-- Lexicographic order on character lists, for `ORDER BY ticker`. -/
def charListLt : List Char → List Char → Bool
  | [], [] => false
  | [], _ :: _ => true
  | _ :: _, [] => false
  | a :: as, b :: bs => if a < b then true else if b < a then false else charListLt as bs

/-- Strict lexicographic order on strings (the `ORDER BY` collation). -/
def strLtB (a b : String) : Bool := charListLt a.data b.data

/-- `DatabaseManager.get_all_tickers`: active watchlist tickers,
`ORDER BY ticker`. -/
def get_all_tickers (db : DBState) : List String :=
  (sortBy (fun a b => !(strLtB b.ticker a.ticker))
    (db.watchlist.filter (fun r => r.isActive))).map (fun r => r.ticker)

/-- `DatabaseManager.save_alert_to_database`: plain `INSERT INTO
alert_history` (append-only); `sent_at` is `datetime.now()` (the local
wall clock, `nowLocal`).  Returns `True` on the success path. -/
def save_alert_to_database (db : DBState) (t atype : String)
    (currentPrice averagePrice absoluteDifference percentDifference : ℚ)
    (nowLocal : Int) : Bool × DBState :=
  let row : AlertRow := ⟨t, atype, currentPrice, averagePrice, absoluteDifference, percentDifference, nowLocal⟩
  (true, { db with alert_history := db.alert_history ++ [row] })

/-- Python `str.upper()` (tickers are ASCII). -/
def pyUpper (s : String) : String := String.mk (s.data.map Char.toUpper)

/-- `DatabaseManager.add_company_to_watchlist`: plain `INSERT` of an
active row with upper-cased ticker. -/
def add_company_to_watchlist (db : DBState) (t : String)
    (companyName : Option String) (sector : Option String)
    (notes : Option String) (now : Int) : Bool × DBState :=
  let row : WatchRow := ⟨pyUpper t, companyName, sector, notes, now, true⟩
  (true, { db with watchlist := db.watchlist ++ [row] })

/-- `DatabaseManager.remove_company_from_watchlist`:
`UPDATE watchlist SET is_active = FALSE WHERE ticker = :ticker` with the
upper-cased ticker; `result.rowcount` is the number of matched rows
(SQLAlchemy's MySQL dialects request rows-matched semantics), and the
function returns `rowcount > 0`. -/
def remove_company_from_watchlist (db : DBState) (t : String) : Bool × DBState :=
  let tU := pyUpper t
  let matched := db.watchlist.countP (fun r => r.ticker == tU)
  let wl := db.watchlist.map (fun r => if r.ticker == tU then { r with isActive := false } else r)
  (decide (0 < matched), { db with watchlist := wl })

/-! ## Alert Evaluator: `StockAnalytics`

`self.average_periods = [7, 30, 90]`. -/

def averagePeriods : List Nat := [7, 30, 90]

/-- The alert-type key string `f'{period}_day'`. -/
def periodKey (period : Nat) : String := toString period ++ "_day"

/-- One candidate condition as built by
`StockAnalytics.compare_price_to_averages` (the `alert_triggered: True`
marker is constant and omitted). -/
structure AlertCond where
  average : ℚ
  absoluteDifference : ℚ
  percentDifference : ℚ
deriving Repr, DecidableEq

/-- The `for period in self.average_periods` loop of
`StockAnalytics.compare_price_to_averages`, accumulating
`alert_conditions`.  Python's division raises `ZeroDivisionError` on a
zero divisor, which propagates out of the loop to the function's
`except` handler. -/
def comparePriceLoop (p : ℚ) (avgs : Nat → Option ℚ) :
    List Nat → List (Nat × AlertCond) → Except PyErr (List (Nat × AlertCond))
  | [], acc => .ok acc
  | period :: rest, acc =>
    match avgs period with
    | some a =>
      if p < a then
        if a = 0 then .error .zeroDivision
        else comparePriceLoop p avgs rest (acc ++ [(period, ⟨a, a - p, (a - p) / a * 100⟩)])
      else comparePriceLoop p avgs rest acc
    | Option.none => comparePriceLoop p avgs rest acc

/-- Body of `StockAnalytics.compare_price_to_averages` before its
exception handler. -/
def comparePriceCore (p : ℚ) (avgs : Nat → Option ℚ) :
    Except PyErr (List (Nat × AlertCond)) :=
  comparePriceLoop p avgs averagePeriods []

/-- Specification-side description of one window's candidate: defined
average strictly above the current price, carrying absolute gap
`average − p` and percentage gap `(average − p) / average × 100`. -/
def candidateOf (p : ℚ) (avgs : Nat → Option ℚ) (period : Nat) :
    Option (Nat × AlertCond) :=
  match avgs period with
  | some a => if p < a then some (period, ⟨a, a - p, (a - p) / a * 100⟩) else Option.none
  | Option.none => Option.none

/-- `StockAnalytics.compare_price_to_averages`: the whole body is inside
`try/except Exception`, which turns any raised error into the empty
result. -/
def compare_price_to_averages (p : ℚ) (avgs : Nat → Option ℚ) :
    List (Nat × AlertCond) :=
  match comparePriceCore p avgs with
  | .ok l => l
  | .error _ => []

/-- `StockAnalytics.calculate_averages_for_ticker`: the per-window
averages map (keys `average_7` / `average_30` / `average_90`). -/
def calculate_averages_for_ticker (db : DBState) (t : String) :
    List (Nat × Option ℚ) :=
  averagePeriods.map (fun period => (period, get_trading_day_averages db t period))

/-- The analysis dict built by `StockAnalytics.analyze_single_ticker`:
`averages` holds the windows with a defined average (`averages_dict`),
`triggered` the subset with `current_price < average`, in iteration
order.  The per-window differences are recomputed by the callers that
consume them, so they are not stored here. -/
structure AnalysisResult where
  currentPrice : ℚ
  averages : List (Nat × ℚ)
  triggered : List (Nat × ℚ)
deriving Repr, DecidableEq

/-- `StockAnalytics.analyze_single_ticker`: `None` when no current
price exists; computing `price_differences` divides by each triggered
average, so a triggered zero average raises `ZeroDivisionError`, which
the function's `except` handler turns into `None`. -/
def analyze_single_ticker (db : DBState) (t : String) : Option AnalysisResult :=
  match get_current_price db t with
  | Option.none => Option.none
  | some p =>
    let avgsDict := (calculate_averages_for_ticker db t).filterMap
      (fun pa => pa.2.map (fun a => (pa.1, a)))
    let trig := avgsDict.filter (fun pa => decide (p < pa.2))
    if trig.any (fun pa => pa.2 == 0) then Option.none
    else some ⟨p, avgsDict, trig⟩

/-! ## Monitoring Cycle Orchestrator: `StockMonitor`

The external collaborators (market-data fetcher, notification system)
are injected through an environment: per ticker, the fetched quote (or
`none` when `force_refresh_all_prices` / `fetch_all_current_prices`
gave nothing for it — its internal retries catch their own errors), the
SQL-error and dedup-query-failure flags, the optional refetched
history, and the notification outcome (`TelegramAlertSystem.send_alert`
catches all its own exceptions and returns a `bool`). -/

structure TickerEnv where
  quote : Option PriceData
  sqlErr : Bool
  hist : Option (List DailyRow)
  dedupQueryFails : Bool
  sendSucceeds : Bool

structure CycleEnv where
  off : Int → Int
  nowUtc : Int
  nowLocal : Int
  perTicker : String → TickerEnv

/-- One call of `alert_system.send_alert` for a ticker: the forwarded
`(window, average)` conditions, the current price they carry, and
whether delivery succeeded. -/
structure Notif where
  ticker : String
  price : ℚ
  conds : List (Nat × ℚ)
  delivered : Bool
deriving Repr, DecidableEq

/-- Result of one orchestrator invocation: final store, the dispatched
notifications, the tickers whose loop iteration ran, and whether the
outer `except` handler terminated the cycle early. -/
structure CycleRes where
  db : DBState
  notifs : List Notif
  visited : List String
  aborted : Bool
deriving Repr, DecidableEq

/-- `StockMonitor._save_alerts_to_database`: one
`save_alert_to_database` per condition, recomputing
`diff = average - current_price` and `pct = diff / average * 100`.
A zero average raises `ZeroDivisionError` inside the loop; the method's
`except` handler logs it, abandoning the remaining saves. -/
def saveAlertsLoop (db : DBState) (t : String) (conds : List (Nat × ℚ))
    (p : ℚ) (nowLocal : Int) : DBState :=
  match conds with
  | [] => db
  | (period, avg) :: rest =>
    if avg == 0 then db
    else
      let db' := (save_alert_to_database db t (periodKey period) p avg
        (avg - p) ((avg - p) / avg * 100) nowLocal).2
      saveAlertsLoop db' t rest p nowLocal

/-- `run_real_time_monitoring`, lines 337–357: the conditions kept for
dispatch are the triggered windows for which
`check_alert_already_sent_today` answers `False` (checked against the
store as it stands at that point of the cycle). -/
def forwardedConds (qf : Bool) (off : Int → Int) (utcNow : Int)
    (db : DBState) (t : String) (ar : AnalysisResult) : List (Nat × ℚ) :=
  ar.triggered.filter
    (fun pa => !(check_alert_already_sent_today (some db) qf off utcNow t (periodKey pa.1)))

/-- The historical-refetch step inside the per-ticker loop: when the
fetch returned data, upsert it; otherwise (fetch failed or returned
`None`, its errors caught by the block's own handler) leave the store
unchanged. -/
def applyHist (db : DBState) (t : String) : Option (List DailyRow) → DBState
  | some rows => (insert_historical_data db t rows).2
  | Option.none => db

/-- The body of the per-ticker loop of
`StockMonitor.run_real_time_monitoring` (lines 296–379), acting on the
accumulated `(store, notifications, visited)` state.  An `.error`
result is an exception that escaped the body: only
`update_latest_price` can raise one (its handler catches
`SQLAlchemyError` only), and the loop has no per-ticker handler, so it
propagates to the cycle-level `except`. -/
def runTicker (env : CycleEnv) (db : DBState) (notifs : List Notif)
    (visited : List String) (t : String) :
    Except (DBState × List Notif × List String) (DBState × List Notif × List String) :=
  let tenv := env.perTicker t
  match tenv.quote with
  | Option.none => .ok (db, notifs, visited ++ [t])
  | some pd =>
    match update_latest_price db t pd tenv.sqlErr env.nowUtc with
    | .error _ => .error (db, notifs, visited)
    | .ok (_, db1) =>
      -- historical refetch (own try/except; `_is_new_trading_day` is
      -- constantly `True`): upsert when the fetch returned data
      let db2 := applyHist db1 t tenv.hist
      match analyze_single_ticker db2 t with
      | Option.none => .ok (db2, notifs, visited ++ [t])
      | some ar =>
        if ar.triggered.isEmpty then .ok (db2, notifs, visited ++ [t])
        else
          let conds := forwardedConds tenv.dedupQueryFails env.off env.nowUtc db2 t ar
          if conds.isEmpty then .ok (db2, notifs, visited ++ [t])
          else
            -- save first ("Always save alerts to database first to
            -- prevent future duplicates"), then dispatch
            let db3 := saveAlertsLoop db2 t conds ar.currentPrice env.nowLocal
            let n : Notif := ⟨t, ar.currentPrice, conds, tenv.sendSucceeds⟩
            .ok (db3, notifs ++ [n], visited ++ [t])

/-- The ticker loop; an escaped exception reaches the cycle-level
`except`, which logs and returns (`aborted = true`). -/
def runTickersAux (env : CycleEnv) : List String → DBState → List Notif →
    List String → CycleRes
  | [], db, notifs, visited => ⟨db, notifs, visited, false⟩
  | t :: rest, db, notifs, visited =>
    match runTicker env db notifs visited t with
    | .error (db', ns', vs') => ⟨db', ns', vs', true⟩
    | .ok (db', ns', vs') => runTickersAux env rest db' ns' vs'

/-- `StockMonitor.run_real_time_monitoring`: guards for an empty ticker
list and an empty fetch result, then the per-ticker loop. -/
def run_real_time_monitoring (env : CycleEnv) (db : DBState) : CycleRes :=
  let tickers := get_all_tickers db
  if tickers.isEmpty then ⟨db, [], [], false⟩
  else if tickers.all (fun t => ((env.perTicker t).quote).isNone) then ⟨db, [], [], false⟩
  else runTickersAux env tickers db [] []

/-! ### The manual alert check: `StockMonitor.run_manual_alert_check` -/

/-- The analysis dict `analyze_all_tickers` builds per ticker: keys
`current_price`, `averages`, `alert_conditions`, `analysis_complete`,
`alerts_triggered`.  There is **no** `price_differences` key. -/
structure AllResult where
  currentPrice : Option ℚ
  averages : List (Nat × Option ℚ)
  alertConditions : List (Nat × AlertCond)
  analysisComplete : Bool
  alertsTriggered : Bool
deriving Repr, DecidableEq

/-- `StockAnalytics.analyze_all_tickers` (via
`calculate_averages_for_all_tickers` and `compare_price_to_averages`). -/
def analyze_all_tickers (db : DBState) (ts : List String) :
    List (String × AllResult) :=
  ts.map (fun t =>
    let avgs := calculate_averages_for_ticker db t
    match get_current_price db t with
    | Option.none => (t, ⟨Option.none, avgs, [], false, false⟩)
    | some p =>
      let conds := compare_price_to_averages p (fun per => (avgs.lookup per).getD Option.none)
      (t, ⟨some p, avgs, conds, true, !conds.isEmpty⟩))

/-- `result.get('price_differences', dict())` in
`run_manual_alert_check`, line 560: the dicts `analyze_all_tickers`
builds contain no `price_differences` key, so the lookup always yields
the empty default. -/
def manualPriceDifferences (_r : AllResult) : List (Nat × ℚ × ℚ) := []

/-- The condition-building loop of `run_manual_alert_check`, lines
558–575: a window enters `alert_conditions` only when it appears in
`result.get('price_differences', dict())` and the dedup check answers
`False`.  (Were the branch ever taken, line 568 would additionally
raise `KeyError` since `result['averages']` is keyed by `average_7`
style names; the branch is unreachable because `manualPriceDifferences`
is always empty.) -/
def manualConds (env : CycleEnv) (db : DBState) (t : String) (r : AllResult) :
    List (Nat × ℚ) :=
  averagePeriods.filterMap (fun period =>
    match (manualPriceDifferences r).lookup period with
    | some _ =>
      if check_alert_already_sent_today (some db) (env.perTicker t).dedupQueryFails
          env.off env.nowUtc t (periodKey period) then Option.none
      else some (period, (((r.averages.lookup period).getD Option.none).getD 0))
    | Option.none => Option.none)

/-- The per-ticker alert loop of `run_manual_alert_check`, lines
552–597: dispatch first, and save to the ledger **only after a
successful dispatch**. -/
def manualLoop (env : CycleEnv) : List (String × AllResult) → DBState →
    List Notif → DBState × List Notif
  | [], db, notifs => (db, notifs)
  | (t, r) :: rest, db, notifs =>
    if r.alertsTriggered then
      let conds := manualConds env db t r
      if conds.isEmpty then manualLoop env rest db notifs
      else
        let delivered := (env.perTicker t).sendSucceeds
        let p := r.currentPrice.getD 0
        let db' := if delivered then saveAlertsLoop db t conds p env.nowLocal else db
        manualLoop env rest db' (notifs ++ [⟨t, p, conds, delivered⟩])
    else manualLoop env rest db notifs

/-- The price-update loop of `run_manual_alert_check`, lines 544–546:
like the real-time path, a non-`SQLAlchemyError` exception from
`update_latest_price` escapes to the method-level `except`. -/
def manualUpdateAll (env : CycleEnv) : List String → DBState → Except DBState DBState
  | [], db => .ok db
  | t :: rest, db =>
    match (env.perTicker t).quote with
    | Option.none => manualUpdateAll env rest db
    | some pd =>
      match update_latest_price db t pd (env.perTicker t).sqlErr env.nowUtc with
      | .error _ => .error db
      | .ok (_, db') => manualUpdateAll env rest db'

/-- `StockMonitor.run_manual_alert_check`. -/
def run_manual_alert_check (env : CycleEnv) (db : DBState) : CycleRes :=
  let tickers := get_all_tickers db
  if tickers.isEmpty then ⟨db, [], [], false⟩
  else
    match manualUpdateAll env tickers db with
    | .error dbA => ⟨dbA, [], [], true⟩
    | .ok db1 =>
      let results := analyze_all_tickers db1 tickers
      let (db2, ns) := manualLoop env results db1 []
      ⟨db2, ns, tickers, false⟩

/-! ## Concrete inputs used by counterexamples and witnesses -/

/-- A PricePoint with only ticker, date and close populated. -/
def mkDaily (t : String) (d : Nat) (c : Option ℚ) : DailyRow :=
  ⟨t, d, Option.none, Option.none, Option.none, c, Option.none, Option.none, 0⟩

/-- An active watchlist row for ticker `t`. -/
def mkWatch (t : String) : WatchRow := ⟨t, Option.none, Option.none, Option.none, 0, true⟩

/-- The expected AlertRecord written by `_save_alerts_to_database` for one
condition `(window, average)` at price `p`. -/
def alertRecOf (nowLocal : Int) (t : String) (p : ℚ) (pa : Nat × ℚ) : AlertRow :=
  ⟨t, periodKey pa.1, p, pa.2, pa.2 - p, (pa.2 - p) / pa.2 * 100, nowLocal⟩

/-- The AlertRecords corresponding to a list of dispatched notifications,
one per forwarded condition. -/
def recsOfNotifs (nowLocal : Int) (ns : List Notif) : List AlertRow :=
  ns.flatMap (fun n => n.conds.map (alertRecOf nowLocal n.ticker n.price))

/-- `Europe/Vienna` around the 2024 spring-forward transition, in minutes
from an epoch at Saturday 2024-03-30 00:00 UTC: offset +60 (CET) before
the transition instant Sunday 01:00 UTC (minute 1500), +120 (CEST)
after. -/
def springOff (u : Int) : Int := if u < 1500 then 60 else 120

/-- A store with a single PricePoint whose close is `NULL`. -/
def dbNullClose : DBState := ⟨[mkDaily "A" 1 Option.none], [], [], []⟩

/-- Scenario A history: closes `[10, 11, 9, 8, 12, 10, 11]` over the
last seven sessions of ticker `X` (most recent last). -/
def dbScenA : DBState :=
  ⟨[mkDaily "X" 1 (some 10), mkDaily "X" 2 (some 11), mkDaily "X" 3 (some 9),
    mkDaily "X" 4 (some 8), mkDaily "X" 5 (some 12), mkDaily "X" 6 (some 10),
    mkDaily "X" 7 (some 11)], [], [], []⟩

/-- The 7-day-window slice of the averages map for Scenario A. -/
def scenAvgs : Nat → Option ℚ :=
  fun per => if per == 7 then get_trading_day_averages dbScenA "X" 7 else Option.none

/-- An averages map defining only the 7-day window. -/
def singleAvg (a : ℚ) : Nat → Option ℚ :=
  fun per => if per == 7 then some a else Option.none

/-- An averages map with a zero 7-day average. -/
def avgsZero : Nat → Option ℚ := fun per => if per == 7 then some 0 else Option.none

/-- An averages map with a negative 7-day average. -/
def avgsNeg : Nat → Option ℚ := fun per => if per == 7 then some (-5) else Option.none

/-- A small history for the C3 witness: closes 1, 2, 3 on days 1, 2, 3. -/
def c3exDb : DBState :=
  ⟨[mkDaily "A" 1 (some 1), mkDaily "A" 2 (some 2), mkDaily "A" 3 (some 3)], [], [], []⟩

/-- A store watched by the cycle examples: active tickers `A` and `B`. -/
def c5Db : DBState := ⟨[], [], [], [mkWatch "A", mkWatch "B"]⟩

/-- A quote whose `price` field is the string `"N/A"`: `float()` on it
raises `ValueError` inside `update_latest_price`. -/
def badQuote : PriceData := ⟨RawVal.str "N/A", RawVal.noneV, RawVal.noneV, RawVal.noneV, Option.none⟩

/-- A healthy quote at price 5 (below `B`'s averages of 10). -/
def goodQuote : PriceData := ⟨RawVal.num 5, RawVal.noneV, RawVal.noneV, RawVal.noneV, Option.none⟩

/-- A constant-offset timezone (+60), far from any transition. -/
def cstOff : Int → Int := fun _ => 60

/-- Cycle environment in which `A`'s fetched quote is malformed and `B`
is healthy. -/
def envBadA : CycleEnv :=
  ⟨cstOff, 3000, 3000, fun t =>
    if t == "A" then ⟨some badQuote, false, Option.none, false, true⟩
    else ⟨some goodQuote, false, Option.none, false, true⟩⟩

/-- Cycle environment in which `A`'s fetch simply failed (no quote) and
`B` is healthy. -/
def envNoA : CycleEnv :=
  ⟨cstOff, 3000, 3000, fun t =>
    if t == "A" then ⟨Option.none, false, Option.none, false, true⟩
    else ⟨some goodQuote, false, Option.none, false, true⟩⟩

/-- A ledger with one AlertRecord for `(X, 30_day)` sent at minute 2000
(inside the session starting at minute 1920 for `utcNow = 3000` under
`cstOff`), for the C1 witness. -/
def c1exDb : DBState := ⟨[], [], [⟨"X", "30_day", 5, 10, 5, 50, 2000⟩], []⟩

/-- A two-company watchlist for the C10 witness. -/
def c10exDb : DBState := ⟨[], [], [], [mkWatch "AA", mkWatch "BB"]⟩

/-! ## Helper lemmas -/

theorem mem_insertSorted (le : α → α → Bool) (a x : α) (l : List α) :
    x ∈ insertSorted le a l ↔ x = a ∨ x ∈ l := by
  induction l with
  | nil => simp [insertSorted]
  | cons b bs ih =>
    by_cases h : le a b = true
    · simp [insertSorted, h]
    · simp only [insertSorted, if_neg h, List.mem_cons, ih]
      tauto

theorem mem_sortBy (le : α → α → Bool) (x : α) (l : List α) :
    x ∈ sortBy le l ↔ x ∈ l := by
  induction l with
  | nil => simp [sortBy]
  | cons a as ih => simp [sortBy, mem_insertSorted, ih]

theorem length_insertSorted (le : α → α → Bool) (a : α) (l : List α) :
    (insertSorted le a l).length = l.length + 1 := by
  induction l with
  | nil => rfl
  | cons b bs ih =>
    by_cases h : le a b = true
    · simp [insertSorted, h]
    · simp [insertSorted, h, ih]

theorem length_sortBy (le : α → α → Bool) (l : List α) :
    (sortBy le l).length = l.length := by
  induction l with
  | nil => rfl
  | cons a as ih => simp [sortBy, length_insertSorted, ih]

theorem filterMap_close_length (l : List DailyRow) (h : ∀ r ∈ l, r.close.isSome) :
    (l.filterMap (fun r => r.close)).length = l.length := by
  induction l with
  | nil => rfl
  | cons r rs ih =>
    obtain ⟨c, hc⟩ := Option.isSome_iff_exists.mp (h r (List.mem_cons_self r rs))
    rw [List.filterMap_cons]
    rw [hc]
    simp only [List.length_cons]
    rw [ih (fun q hq => h q (List.mem_cons_of_mem r hq))]

theorem comparePriceLoop_ok (p : ℚ) (avgs : Nat → Option ℚ) :
    ∀ (ps : List Nat) (acc : List (Nat × AlertCond)),
      (∀ period ∈ ps, ∀ a, avgs period = some a → p < a → a ≠ 0) →
      comparePriceLoop p avgs ps acc = .ok (acc ++ ps.filterMap (candidateOf p avgs)) := by
  intro ps
  induction ps with
  | nil => intro acc _; simp [comparePriceLoop]
  | cons q rest ih =>
    intro acc h
    have hrest : ∀ period ∈ rest, ∀ a, avgs period = some a → p < a → a ≠ 0 :=
      fun period hm => h period (List.mem_cons_of_mem q hm)
    cases hq : avgs q with
    | none =>
      rw [comparePriceLoop]
      simp only [hq]
      rw [ih acc hrest, List.filterMap_cons]
      simp [candidateOf, hq]
    | some a =>
      rw [comparePriceLoop]
      simp only [hq]
      by_cases hlt : p < a
      · have hne : a ≠ 0 := h q (List.mem_cons_self q rest) a hq hlt
        rw [if_pos hlt, if_neg hne, ih _ hrest, List.filterMap_cons]
        simp [candidateOf, hq, hlt]
      · rw [if_neg hlt, ih acc hrest, List.filterMap_cons]
        simp [candidateOf, hq, hlt]

theorem comparePriceLoop_zero (p : ℚ) (avgs : Nat → Option ℚ) :
    ∀ (ps : List Nat) (acc : List (Nat × AlertCond)),
      (∃ period ∈ ps, avgs period = some 0) → p < 0 →
      comparePriceLoop p avgs ps acc = .error PyErr.zeroDivision := by
  intro ps
  induction ps with
  | nil =>
    rintro acc ⟨period, hm, _⟩ _
    exact absurd hm (List.not_mem_nil period)
  | cons q rest ih =>
    rintro acc ⟨period, hm, h0⟩ hp0
    cases hq : avgs q with
    | none =>
      rw [comparePriceLoop]
      simp only [hq]
      rcases List.mem_cons.mp hm with hqq | hr
      · rw [hqq] at h0
        rw [h0] at hq
        exact absurd hq (by simp)
      · exact ih acc ⟨period, hr, h0⟩ hp0
    | some a =>
      rw [comparePriceLoop]
      simp only [hq]
      by_cases hlt : p < a
      · by_cases ha : a = 0
        · rw [if_pos hlt, if_pos ha]
        · rw [if_pos hlt, if_neg ha]
          rcases List.mem_cons.mp hm with hqq | hr
          · rw [hqq] at h0
            rw [h0] at hq
            exact absurd (Option.some.inj hq).symm ha
          · exact ih _ ⟨period, hr, h0⟩ hp0
      · rw [if_neg hlt]
        rcases List.mem_cons.mp hm with hqq | hr
        · exfalso
          rw [hqq] at h0
          rw [h0] at hq
          rw [← Option.some.inj hq] at hlt
          exact hlt hp0
        · exact ih acc ⟨period, hr, h0⟩ hp0

theorem candidateOf_eq_some (p : ℚ) (avgs : Nat → Option ℚ) (q : Nat) (x : Nat × AlertCond) :
    candidateOf p avgs q = some x ↔
      ∃ a, avgs q = some a ∧ p < a ∧ x = (q, ⟨a, a - p, (a - p) / a * 100⟩) := by
  unfold candidateOf
  cases hqa : avgs q with
  | none => simp
  | some a =>
    change (if p < a then some (q, ⟨a, a - p, (a - p) / a * 100⟩) else Option.none) = some x ↔ _
    by_cases hlt : p < a
    · rw [if_pos hlt]
      constructor
      · intro h
        exact ⟨a, rfl, hlt, (Option.some.inj h).symm⟩
      · rintro ⟨b, hb, _, hx⟩
        rw [← Option.some.inj hb] at hx
        rw [hx]
    · rw [if_neg hlt]
      constructor
      · intro h
        cases h
      · rintro ⟨b, hb, hbl, _⟩
        rw [← Option.some.inj hb] at hbl
        exact absurd hbl hlt

theorem check_alert_true_iff (s : DBState) (off : Int → Int) (now : Int) (t atype : String) :
    check_alert_already_sent_today (some s) false off now t atype = true ↔
      ∃ r ∈ s.alert_history, r.ticker = t ∧ r.alertType = atype ∧
        sessionStartCode off now ≤ r.sentAt := by
  show decide (0 < s.alert_history.countP (matchesAlert t atype (sessionStartCode off now))) =
      true ↔ _
  rw [decide_eq_true_iff, List.countP_pos_iff]
  constructor
  · rintro ⟨r, hr, hm⟩
    simp only [matchesAlert, Bool.and_eq_true, beq_iff_eq, decide_eq_true_iff] at hm
    exact ⟨r, hr, hm.1.1, hm.1.2, hm.2⟩
  · rintro ⟨r, hr, h1, h2, h3⟩
    refine ⟨r, hr, ?_⟩
    simp [matchesAlert, h1, h2, h3]

theorem update_latest_history (db : DBState) (t : String) (pd : PriceData)
    (se : Bool) (now : Int) (b : Bool) (db1 : DBState)
    (h : update_latest_price db t pd se now = .ok (b, db1)) :
    db1.alert_history = db.alert_history := by
  unfold update_latest_price at h
  split at h
  · cases h
  · split at h
    · cases h
    · split at h
      · cases h
      · split at h
        · rw [← (Prod.mk.inj (Except.ok.inj h)).2]
        · rw [← (Prod.mk.inj (Except.ok.inj h)).2]

theorem applyHist_history (db : DBState) (t : String) (h : Option (List DailyRow)) :
    (applyHist db t h).alert_history = db.alert_history := by
  cases h <;> rfl

theorem analyze_triggered_ne_zero (db : DBState) (t : String) (ar : AnalysisResult)
    (h : analyze_single_ticker db t = some ar) : ∀ pa ∈ ar.triggered, pa.2 ≠ 0 := by
  intro pa hmem h0
  simp only [analyze_single_ticker] at h
  split at h
  · cases h
  · split at h
    · cases h
    · next hz =>
      rw [← Option.some.inj h] at hmem
      apply hz
      rw [List.any_eq_true]
      exact ⟨pa, hmem, by simp [h0]⟩

theorem saveAlertsLoop_history (t : String) (p : ℚ) (nowL : Int) :
    ∀ (conds : List (Nat × ℚ)) (db : DBState),
      (∀ pa ∈ conds, pa.2 ≠ 0) →
      (saveAlertsLoop db t conds p nowL).alert_history =
        db.alert_history ++ conds.map (alertRecOf nowL t p) := by
  intro conds
  induction conds with
  | nil => intro db _; simp [saveAlertsLoop]
  | cons c rest ih =>
    intro db h
    obtain ⟨period, avg⟩ := c
    have hne : avg ≠ 0 := h (period, avg) (List.mem_cons_self _ _)
    have hb : (avg == 0) = false := beq_eq_false_iff_ne.mpr hne
    rw [saveAlertsLoop]
    simp only [hb, Bool.false_eq_true, if_false]
    rw [ih _ (fun pa hm => h pa (List.mem_cons_of_mem _ hm))]
    simp [save_alert_to_database, alertRecOf]

theorem recsOfNotifs_append (nowL : Int) (a b : List Notif) :
    recsOfNotifs nowL (a ++ b) = recsOfNotifs nowL a ++ recsOfNotifs nowL b := by
  simp [recsOfNotifs]

theorem runTicker_cases (env : CycleEnv) (db : DBState) (notifs : List Notif)
    (visited : List String) (t : String) :
    (runTicker env db notifs visited t = .error (db, notifs, visited)) ∨
    (∃ db' vs', runTicker env db notifs visited t = .ok (db', notifs, vs') ∧
      db'.alert_history = db.alert_history) ∨
    (∃ db' vs' n, runTicker env db notifs visited t = .ok (db', notifs ++ [n], vs') ∧
      db'.alert_history = db.alert_history ++ recsOfNotifs env.nowLocal [n]) := by
  cases hq : (env.perTicker t).quote with
  | none =>
    simp only [runTicker, hq]
    exact Or.inr (Or.inl ⟨db, visited ++ [t], rfl, rfl⟩)
  | some pd =>
    cases hu : update_latest_price db t pd (env.perTicker t).sqlErr env.nowUtc with
    | error e =>
      simp only [runTicker, hq, hu]
      exact Or.inl trivial
    | ok bdb =>
      obtain ⟨b, db1⟩ := bdb
      have hh1 : db1.alert_history = db.alert_history :=
        update_latest_history db t pd (env.perTicker t).sqlErr env.nowUtc b db1 hu
      have hh2 : (applyHist db1 t (env.perTicker t).hist).alert_history = db.alert_history := by
        rw [applyHist_history, hh1]
      cases ha : analyze_single_ticker (applyHist db1 t (env.perTicker t).hist) t with
      | none =>
        simp only [runTicker, hq, hu, ha]
        exact Or.inr (Or.inl ⟨_, visited ++ [t], rfl, hh2⟩)
      | some ar =>
        simp only [runTicker, hq, hu, ha]
        by_cases htrig : ar.triggered.isEmpty = true
        · rw [if_pos htrig]
          exact Or.inr (Or.inl ⟨_, visited ++ [t], rfl, hh2⟩)
        · rw [if_neg htrig]
          by_cases hconds : (forwardedConds (env.perTicker t).dedupQueryFails env.off env.nowUtc
              (applyHist db1 t (env.perTicker t).hist) t ar).isEmpty = true
          · rw [if_pos hconds]
            exact Or.inr (Or.inl ⟨_, visited ++ [t], rfl, hh2⟩)
          · rw [if_neg hconds]
            refine Or.inr (Or.inr ⟨_, visited ++ [t],
              ⟨t, ar.currentPrice,
                forwardedConds (env.perTicker t).dedupQueryFails env.off env.nowUtc
                  (applyHist db1 t (env.perTicker t).hist) t ar, (env.perTicker t).sendSucceeds⟩,
              rfl, ?_⟩)
            have hnz : ∀ pa ∈ forwardedConds (env.perTicker t).dedupQueryFails env.off env.nowUtc
                (applyHist db1 t (env.perTicker t).hist) t ar, pa.2 ≠ 0 := by
              intro pa hpa
              exact analyze_triggered_ne_zero _ t ar ha pa (List.mem_filter.mp hpa).1
            rw [saveAlertsLoop_history t ar.currentPrice env.nowLocal _ _ hnz, hh2]
            simp [recsOfNotifs]

theorem runTickersAux_history (env : CycleEnv) :
    ∀ (ts : List String) (db : DBState) (notifs : List Notif) (visited : List String)
      (base : List AlertRow),
      db.alert_history = base ++ recsOfNotifs env.nowLocal notifs →
      (runTickersAux env ts db notifs visited).db.alert_history =
        base ++ recsOfNotifs env.nowLocal (runTickersAux env ts db notifs visited).notifs := by
  intro ts
  induction ts with
  | nil => intro db ns vs base h; exact h
  | cons t rest ih =>
    intro db ns vs base h
    rw [runTickersAux]
    rcases runTicker_cases env db ns vs t with herr | ⟨db', vs', hok, hh⟩ | ⟨db', vs', n, hok, hh⟩
    · rw [herr]
      exact h
    · rw [hok]
      exact ih db' ns vs' base (by rw [hh, h])
    · rw [hok]
      refine ih db' (ns ++ [n]) vs' base ?_
      rw [hh, h, recsOfNotifs_append, List.append_assoc]

theorem manualConds_empty (env : CycleEnv) (db : DBState) (t : String) (r : AllResult) :
    manualConds env db t r = [] := rfl

theorem manualLoop_id (env : CycleEnv) :
    ∀ (results : List (String × AllResult)) (db : DBState) (notifs : List Notif),
      manualLoop env results db notifs = (db, notifs) := by
  intro results
  induction results with
  | nil => intro db ns; rfl
  | cons tr rest ih =>
    intro db ns
    obtain ⟨t, r⟩ := tr
    simp only [manualLoop]
    rw [manualConds_empty env db t r]
    simp only [List.isEmpty_nil, if_true, ite_self]
    exact ih db ns

/-! ## Claim theorems -/

/-- C2: the session boundary resolver is **not** correct across
daylight-saving transitions.  With the Vienna timezone modelled around
the 2024 spring-forward (`springOff`), at UTC minute 1830 (Sunday
06:30 UTC, local wall clock 08:30 CEST — before the 09:00 open, so the
previous day's open is required), the code returns instant 420, whose
local wall clock is 480 (Saturday **08:00** local): the naive
`- timedelta(days=1)` kept Sunday's +02:00 offset although Saturday
09:00 local is CET.  The instant actually denoting "09:00 local on the
previous day" is 480 (its wall clock is 540 = Saturday 09:00). -/
theorem C2_session_resolver_dst_bug :
    sessionStartCode springOff 1830 = 420 ∧
    localWall springOff 1830 % 1440 = 510 ∧
    localWall springOff 480 = 540 ∧
    localWall springOff 420 = 480 ∧
    sessionStartCode springOff 1830 ≠ 480 := by decide

/-- C9: every failure branch of the dedup-ledger read —
`self.db` unavailable, or the `SELECT` raising (the inner and outer
`except` handlers) — makes `check_alert_already_sent_today` return
`False`, i.e. the condition stays eligible for notification. -/
theorem C9_ledger_failure_eligible :
    (∀ (qf : Bool) (off : Int → Int) (now : Int) (t atype : String),
      check_alert_already_sent_today Option.none qf off now t atype = false) ∧
    (∀ (s : DBState) (off : Int → Int) (now : Int) (t atype : String),
      check_alert_already_sent_today (some s) true off now t atype = false) :=
  ⟨fun _ _ _ _ _ => rfl, fun _ _ _ _ _ => rfl⟩

/-- C6: inserting a PricePoint twice for the same `(symbol, date)` key
leaves exactly one row for that key, holding the later insert's values
(`REPLACE INTO` on the unique key `(ticker, date)` is an upsert, not an
append). -/
theorem C6_upsert_idempotent (db : DBState) (t : String) (r1 r2 : DailyRow)
    (h : r1.date = r2.date) :
    ((insert_historical_data (insert_historical_data db t [r1]).2 t [r2]).2).stock_daily.filter
      (fun q => q.ticker == t && q.date == r1.date) = [{ r2 with ticker := t }] ∧
    ((insert_historical_data (insert_historical_data db t [r1]).2 t [r2]).2).stock_daily.countP
      (fun q => q.ticker == t && q.date == r1.date) = 1 := by
  have hst : ((insert_historical_data (insert_historical_data db t [r1]).2 t [r2]).2).stock_daily
      = replaceIntoDaily (replaceIntoDaily db.stock_daily { r1 with ticker := t })
          { r2 with ticker := t } := rfl
  have key : ∀ l : List DailyRow,
      (replaceIntoDaily l { r2 with ticker := t }).filter
        (fun q => q.ticker == t && q.date == r2.date) = [{ r2 with ticker := t }] := by
    intro l
    simp only [replaceIntoDaily, List.filter_append, List.filter_filter]
    rw [List.filter_eq_nil_iff.mpr, List.nil_append]
    · simp
    · intro q _
      cases hq : (q.ticker == t && q.date == r2.date) <;> simp_all
  constructor
  · rw [hst]
    simp only [h]
    exact key _
  · rw [hst, List.countP_eq_length_filter]
    simp only [h]
    rw [key _]
    rfl

/-- C6 witness: concrete double insert for `("A", 3)`. -/
theorem C6_upsert_witness :
    ((insert_historical_data (insert_historical_data ⟨[], [], [], []⟩ "A"
      [mkDaily "x" 3 (some 1)]).2 "A" [mkDaily "y" 3 (some 2)]).2).stock_daily.filter
      (fun q => q.ticker == "A" && q.date == 3) = [{ mkDaily "y" 3 (some 2) with ticker := "A" }] :=
  (C6_upsert_idempotent ⟨[], [], [], []⟩ "A" (mkDaily "x" 3 (some 1))
    (mkDaily "y" 3 (some 2)) rfl).1

/-- C10: removing a symbol only flips the matching watchlist row's
`is_active` flag to false: the other three tables and all other
watchlist fields are unchanged, the return value is `True` exactly when
a row with the upper-cased symbol existed, and the symbol disappears
from the active-ticker list consumed by the monitoring cycle. -/
theorem C10_remove_watchlist_frame (db : DBState) (t : String) :
    ((remove_company_from_watchlist db t).2.stock_daily = db.stock_daily) ∧
    ((remove_company_from_watchlist db t).2.stock_latest = db.stock_latest) ∧
    ((remove_company_from_watchlist db t).2.alert_history = db.alert_history) ∧
    ((remove_company_from_watchlist db t).2.watchlist.length = db.watchlist.length) ∧
    (∀ r ∈ db.watchlist, r.ticker ≠ pyUpper t →
      r ∈ (remove_company_from_watchlist db t).2.watchlist) ∧
    (∀ r ∈ db.watchlist, r.ticker = pyUpper t →
      { r with isActive := false } ∈ (remove_company_from_watchlist db t).2.watchlist) ∧
    (∀ q ∈ (remove_company_from_watchlist db t).2.watchlist, ∃ r ∈ db.watchlist,
      q = r ∨ (r.ticker = pyUpper t ∧ q = { r with isActive := false })) ∧
    ((remove_company_from_watchlist db t).1 = true ↔
      ∃ r ∈ db.watchlist, r.ticker = pyUpper t) ∧
    pyUpper t ∉ get_all_tickers (remove_company_from_watchlist db t).2 := by
  have hwl : (remove_company_from_watchlist db t).2.watchlist =
      db.watchlist.map (fun x => if x.ticker == pyUpper t then { x with isActive := false } else x) := rfl
  have hres : (remove_company_from_watchlist db t).1 =
      decide (0 < db.watchlist.countP (fun r => r.ticker == pyUpper t)) := rfl
  refine ⟨rfl, rfl, rfl, ?_, ?_, ?_, ?_, ?_, ?_⟩
  · rw [hwl, List.length_map]
  · intro r hr hne
    rw [hwl, List.mem_map]
    refine ⟨r, hr, ?_⟩
    have hb : (r.ticker == pyUpper t) = false := beq_eq_false_iff_ne.mpr hne
    simp [hb]
  · intro r hr he
    rw [hwl, List.mem_map]
    refine ⟨r, hr, ?_⟩
    have hb : (r.ticker == pyUpper t) = true := beq_iff_eq.mpr he
    simp [hb]
  · intro q hq
    rw [hwl, List.mem_map] at hq
    obtain ⟨r, hr, hrq⟩ := hq
    refine ⟨r, hr, ?_⟩
    by_cases he : r.ticker = pyUpper t
    · right
      refine ⟨he, ?_⟩
      rw [← hrq]
      simp [beq_iff_eq, he]
    · left
      rw [← hrq]
      simp [beq_eq_false_iff_ne.mpr he]
  · rw [hres, decide_eq_true_iff, List.countP_pos_iff]
    constructor
    · rintro ⟨r, hr, hm⟩
      exact ⟨r, hr, by simpa using hm⟩
    · rintro ⟨r, hr, hm⟩
      exact ⟨r, hr, by simpa using hm⟩
  · intro hmem
    simp only [get_all_tickers, List.mem_map] at hmem
    obtain ⟨row, hrow, hticker⟩ := hmem
    rw [mem_sortBy] at hrow
    have hact := (List.mem_filter.mp hrow).2
    have hmem2 := (List.mem_filter.mp hrow).1
    rw [hwl, List.mem_map] at hmem2
    obtain ⟨r, _, hrq⟩ := hmem2
    by_cases he : r.ticker = pyUpper t
    · rw [← hrq] at hact
      simp [beq_iff_eq, he] at hact
    · rw [← hrq] at hticker
      rw [beq_eq_false_iff_ne.mpr he] at hticker
      simp at hticker
      exact he hticker

/-- C10 witness: removing `"aa"` from a two-company watchlist. -/
theorem C10_remove_witness :
    (remove_company_from_watchlist c10exDb "aa").1 = true :=
  ((C10_remove_watchlist_frame c10exDb "aa").2.2.2.2.2.2.2.1).mpr
    ⟨mkWatch "AA", by decide, by decide⟩

/-- C3 counterexample: a symbol with one stored PricePoint (so N = 1)
whose close is NULL.  The calculator returns "no data" although N ≠ 0,
refuting "returns None if and only if N = 0": the `close IS NOT NULL`
filter of the query makes the result `None` exactly when no point has
a non-null close, not when no point is stored. -/
theorem C3_none_with_row :
    get_trading_day_averages dbNullClose "A" 7 = Option.none ∧
    (dbNullClose.stock_daily.filter (fun r => r.ticker == "A")).length = 1 := by decide

/-- C3 (amended): for every symbol and window `w > 0`, writing `M` for
the number of stored PricePoints of the symbol **with a non-null
close**, the calculator returns "no data" iff `M = 0`; otherwise it
returns the arithmetic mean of the closes of the `min(w, M)` most
recent such points ordered by date descending (`selectRecentCloses`).
It is a pure read of the store. -/
theorem C3_moving_average (db : DBState) (t : String) (w : Nat) (hw : 0 < w) :
    (get_trading_day_averages db t w = Option.none ↔
      (db.stock_daily.filter (fun r => r.ticker == t && r.close.isSome)).length = 0) ∧
    ((selectRecentCloses db t w).length =
      min w (db.stock_daily.filter (fun r => r.ticker == t && r.close.isSome)).length) ∧
    ((db.stock_daily.filter (fun r => r.ticker == t && r.close.isSome)).length ≠ 0 →
      get_trading_day_averages db t w = some ((selectRecentCloses db t w).sum /
        ((min w (db.stock_daily.filter (fun r => r.ticker == t && r.close.isSome)).length : ℕ) : ℚ))) := by
  have hall : ∀ r ∈ (sortBy (fun a b => b.date ≤ a.date)
      (db.stock_daily.filter (fun r => r.ticker == t && r.close.isSome))).take w,
      r.close.isSome := by
    intro r hr
    have hr1 := List.take_subset w _ hr
    rw [mem_sortBy] at hr1
    have h2 := (List.mem_filter.mp hr1).2
    simp only [Bool.and_eq_true] at h2
    exact h2.2
  have hlen : (selectRecentCloses db t w).length =
      min w (db.stock_daily.filter (fun r => r.ticker == t && r.close.isSome)).length := by
    rw [selectRecentCloses, filterMap_close_length _ hall, List.length_take, length_sortBy]
  have key : get_trading_day_averages db t w = Option.none ↔
      (selectRecentCloses db t w).isEmpty = true := by
    unfold get_trading_day_averages
    by_cases hemp : (selectRecentCloses db t w).isEmpty
    · simp [hemp]
    · simp [hemp]
  refine ⟨?_, hlen, ?_⟩
  · rw [key, List.isEmpty_iff_length_eq_zero, hlen, Nat.min_eq_zero_iff]
    constructor
    · rintro (h0 | h0)
      · exact absurd h0 (Nat.pos_iff_ne_zero.mp hw)
      · exact h0
    · intro h0
      exact Or.inr h0
  · intro hM
    have hpos : 0 < (selectRecentCloses db t w).length := by
      rw [hlen]
      exact Nat.lt_min.mpr ⟨hw, Nat.pos_of_ne_zero hM⟩
    have hne : (selectRecentCloses db t w).isEmpty = false := by
      cases hemp : (selectRecentCloses db t w).isEmpty
      · rfl
      · rw [List.isEmpty_iff_length_eq_zero] at hemp
        omega
    simp only [get_trading_day_averages, hne, Bool.false_eq_true, if_false, Option.some.injEq]
    rw [hlen]

/-- C3 witness: three stored closes 1, 2, 3 for `A`; the 2-day average
is (3 + 2) / 2 = 5/2. -/
theorem C3_moving_average_witness :
    get_trading_day_averages c3exDb "A" 2 = some (5 / 2) := by
  have h := (C3_moving_average c3exDb "A" 2 (by decide)).2.2 (by decide)
  rw [h]
  norm_num [selectRecentCloses, c3exDb, mkDaily, sortBy, insertSorted, List.filterMap_cons]

/-- C4 counterexample: with a defined zero 7-day average and current
price −1 (so p < average), the claim demands a candidate for the 7-day
window, but the evaluator returns no candidate at all: the percentage
division raises `ZeroDivisionError` and the handler returns the empty
dict. -/
theorem C4_zero_average_no_candidate :
    compare_price_to_averages (-1) avgsZero = [] ∧
    avgsZero 7 = some 0 ∧ ((-1 : ℚ) < 0) := by
  refine ⟨?_, by simp [avgsZero], by norm_num⟩
  norm_num [compare_price_to_averages, comparePriceCore, comparePriceLoop,
    averagePeriods, avgsZero]

/-- C4 (amended): provided no window's defined average is zero while
sitting strictly above the current price (otherwise the division
raises and the evaluator returns no candidates for any window), the
evaluator produces a candidate exactly for the windows whose average
is defined and satisfies p < average, carrying absolute gap
`average − p` and percentage gap `(average − p) / average × 100`;
windows where p ≥ average or the average is undefined produce no
candidate.  Scenario A: closes `[10, 11, 9, 8, 12, 10, 11]`, current
price 9.5: the 7-day average is 71/7 = 10.142857…, the condition
triggers with absolute gap 9/14 = 0.642857… and percentage gap
450/71 = 6.338… ≈ 6.34%. -/
theorem C4_evaluator (p : ℚ) (avgs : Nat → Option ℚ)
    (hz : ∀ period ∈ averagePeriods, ∀ a, avgs period = some a → p < a → a ≠ 0) :
    (∀ period : Nat, (∃ c, (period, c) ∈ compare_price_to_averages p avgs) ↔
      (period ∈ averagePeriods ∧ ∃ a, avgs period = some a ∧ p < a)) ∧
    (∀ period c, (period, c) ∈ compare_price_to_averages p avgs →
      avgs period = some c.average ∧ c.absoluteDifference = c.average - p ∧
      c.percentDifference = (c.average - p) / c.average * 100) ∧
    (get_trading_day_averages dbScenA "X" 7 = some (71 / 7) ∧
      compare_price_to_averages (19 / 2) scenAvgs = [(7, ⟨71 / 7, 9 / 14, 450 / 71⟩)] ∧
      ((10142857 : ℚ) / 1000000 < 71 / 7 ∧ (71 : ℚ) / 7 < 10142858 / 1000000) ∧
      ((642857 : ℚ) / 1000000 < 9 / 14 ∧ (9 : ℚ) / 14 < 642858 / 1000000) ∧
      ((6335 : ℚ) / 1000 < 450 / 71 ∧ (450 : ℚ) / 71 < 6345 / 1000)) := by
  have heq : compare_price_to_averages p avgs =
      averagePeriods.filterMap (candidateOf p avgs) := by
    unfold compare_price_to_averages comparePriceCore
    rw [comparePriceLoop_ok p avgs averagePeriods [] hz]
    simp
  have havg : get_trading_day_averages dbScenA "X" 7 = some (71 / 7) := by
    norm_num [get_trading_day_averages, selectRecentCloses, dbScenA, mkDaily,
      sortBy, insertSorted, List.filterMap_cons]
  refine ⟨?_, ?_, havg, ?_, by norm_num, by norm_num, by norm_num⟩
  · intro period
    rw [heq]
    constructor
    · rintro ⟨c, hc⟩
      rw [List.mem_filterMap] at hc
      obtain ⟨q, hqmem, hcand⟩ := hc
      obtain ⟨a, ha, hlt, hx⟩ := (candidateOf_eq_some p avgs q (period, c)).mp hcand
      have hqp : period = q := congrArg Prod.fst hx
      rw [hqp]
      exact ⟨hqmem, a, ha, hlt⟩
    · rintro ⟨hper, a, ha, hlt⟩
      refine ⟨⟨a, a - p, (a - p) / a * 100⟩, ?_⟩
      rw [List.mem_filterMap]
      exact ⟨period, hper, (candidateOf_eq_some p avgs period _).mpr ⟨a, ha, hlt, rfl⟩⟩
  · intro period c hc
    rw [heq, List.mem_filterMap] at hc
    obtain ⟨q, _, hcand⟩ := hc
    obtain ⟨a, ha, hlt, hx⟩ := (candidateOf_eq_some p avgs q (period, c)).mp hcand
    have hqp : period = q := congrArg Prod.fst hx
    have hcc : c = ⟨a, a - p, (a - p) / a * 100⟩ := congrArg Prod.snd hx
    rw [hqp, hcc]
    exact ⟨ha, rfl, rfl⟩
  · have hz2 : ∀ period ∈ averagePeriods, ∀ a, scenAvgs period = some a →
        (19 : ℚ) / 2 < a → a ≠ 0 := by
      intro period _ a ha _
      simp only [scenAvgs] at ha
      by_cases h7 : (period == 7) = true
      · rw [if_pos h7, havg] at ha
        rw [← Option.some.inj ha]
        norm_num
      · rw [if_neg h7] at ha
        exact absurd ha (by simp)
    have heq2 : compare_price_to_averages (19 / 2) scenAvgs =
        averagePeriods.filterMap (candidateOf (19 / 2) scenAvgs) := by
      unfold compare_price_to_averages comparePriceCore
      rw [comparePriceLoop_ok (19 / 2) scenAvgs averagePeriods [] hz2]
      simp
    rw [heq2]
    norm_num [averagePeriods, List.filterMap_cons, candidateOf, scenAvgs, havg]

/-- C4 witness: Scenario A instantiation of the amended evaluator
theorem — the 7-day window yields a candidate at price 9.5. -/
theorem C4_evaluator_witness :
    ∃ c, (7, c) ∈ compare_price_to_averages (19 / 2) scenAvgs := by
  have havg : get_trading_day_averages dbScenA "X" 7 = some (71 / 7) := by
    norm_num [get_trading_day_averages, selectRecentCloses, dbScenA, mkDaily,
      sortBy, insertSorted, List.filterMap_cons]
  have hz : ∀ period ∈ averagePeriods, ∀ a, scenAvgs period = some a →
      (19 : ℚ) / 2 < a → a ≠ 0 := by
    intro period _ a ha _
    simp only [scenAvgs] at ha
    by_cases h7 : (period == 7) = true
    · rw [if_pos h7, havg] at ha
      rw [← Option.some.inj ha]
      norm_num
    · rw [if_neg h7] at ha
      exact absurd ha (by simp)
  exact ((C4_evaluator (19 / 2) scenAvgs hz).1 7).mpr
    ⟨by decide, 71 / 7, by simp [scenAvgs, havg], by norm_num⟩

/-- C8 counterexample: a window with a **negative** average and the
current price below it produces a candidate (with a negative
percentage gap, the division having run with a negative divisor),
refuting "zero or negative averages are treated as no data". -/
theorem C8_negative_average_candidate :
    compare_price_to_averages (-10) avgsNeg = [(7, ⟨-5, 5, -100⟩)] ∧
    avgsNeg 7 = some (-5) ∧ ((-5 : ℚ) < 0) := by
  refine ⟨?_, by simp [avgsNeg], by norm_num⟩
  norm_num [compare_price_to_averages, comparePriceCore, comparePriceLoop,
    averagePeriods, avgsNeg]

/-- C8 (amended): the evaluator does **not** guard degenerate
averages.  A 7-day window with negative average `a` and price `p < a`
produces a candidate whose percentage gap divides by the negative
average; and whenever some window carries a zero average (its trigger
`p < 0` following from `p < a < 0`), the `ZeroDivisionError` makes the
evaluator return no candidates for **any** window. -/
theorem C8_degenerate_averages (p a : ℚ) (hneg : a < 0) (hlt : p < a) :
    (compare_price_to_averages p (singleAvg a) = [(7, ⟨a, a - p, (a - p) / a * 100⟩)]) ∧
    (∀ (avgs : Nat → Option ℚ) (period : Nat), period ∈ averagePeriods →
      avgs period = some 0 → compare_price_to_averages p avgs = []) := by
  constructor
  · have hz : ∀ period ∈ averagePeriods, ∀ b, singleAvg a period = some b → p < b → b ≠ 0 := by
      intro period _ b hb _
      simp only [singleAvg] at hb
      by_cases h7 : (period == 7) = true
      · rw [if_pos h7] at hb
        rw [← Option.some.inj hb]
        exact ne_of_lt hneg
      · rw [if_neg h7] at hb
        exact absurd hb (by simp)
    unfold compare_price_to_averages comparePriceCore
    rw [comparePriceLoop_ok p (singleAvg a) averagePeriods [] hz]
    simp only [averagePeriods, List.filterMap_cons, List.filterMap_nil, candidateOf, singleAvg]
    norm_num [hlt]
  · intro avgs period hper h0
    have hp0 : p < 0 := lt_trans hlt hneg
    unfold compare_price_to_averages comparePriceCore
    rw [comparePriceLoop_zero p avgs averagePeriods [] ⟨period, hper, h0⟩ hp0]

/-- C8 witness: the amended theorem at average −5 and price −10. -/
theorem C8_degenerate_witness :
    compare_price_to_averages (-10) (singleAvg (-5)) = [(7, ⟨-5, 5, -100⟩)] := by
  have h := (C8_degenerate_averages (-10) (-5) (by norm_num) (by norm_num)).1
  rw [h]
  norm_num

/-- C1: (i) with the store available and the query succeeding, the
dedup query answers "already notified" iff at least one AlertRecord
exists for that symbol and window with `sent_at` at or after the
current session's start instant; (ii) once it answers "already
notified", it keeps doing so at any later check whose session start is
the same instant (records are only ever appended), i.e. until the next
session begins; (iii) the monitoring cycle forwards exactly the
triggered conditions for which no such prior record exists
(`forwardedConds` is the filter applied before dispatch in
`run_real_time_monitoring`). -/
theorem C1_dedup_query (s : DBState) (off : Int → Int) (now : Int) (t atype : String) :
    (check_alert_already_sent_today (some s) false off now t atype = true ↔
      ∃ r ∈ s.alert_history, r.ticker = t ∧ r.alertType = atype ∧
        sessionStartCode off now ≤ r.sentAt) ∧
    (∀ (extra : List AlertRow) (now2 : Int),
      sessionStartCode off now2 = sessionStartCode off now →
      check_alert_already_sent_today (some s) false off now t atype = true →
      check_alert_already_sent_today
        (some { s with alert_history := s.alert_history ++ extra }) false off now2 t atype = true) ∧
    (∀ (db2 : DBState) (ar : AnalysisResult) (pa : Nat × ℚ),
      pa ∈ forwardedConds false off now db2 t ar →
      ¬ ∃ r ∈ db2.alert_history, r.ticker = t ∧ r.alertType = periodKey pa.1 ∧
        sessionStartCode off now ≤ r.sentAt) := by
  refine ⟨check_alert_true_iff s off now t atype, ?_, ?_⟩
  · intro extra now2 hsess htrue
    rw [check_alert_true_iff] at htrue ⊢
    obtain ⟨r, hr, hcond⟩ := htrue
    rw [hsess]
    exact ⟨r, List.mem_append_left extra hr, hcond⟩
  · intro db2 ar pa hmem hEx
    have hfil := (List.mem_filter.mp hmem).2
    have hq : check_alert_already_sent_today (some db2) false off now t (periodKey pa.1) = false := by
      cases hc : check_alert_already_sent_today (some db2) false off now t (periodKey pa.1)
      · rfl
      · rw [hc] at hfil
        simp at hfil
    rw [← check_alert_true_iff db2 off now t (periodKey pa.1)] at hEx
    rw [hq] at hEx
    cases hEx

/-- C1 witness: a ledger holding one `(X, 30_day)` record sent at
minute 2000, inside the session starting at minute 1920. -/
theorem C1_dedup_query_witness :
    check_alert_already_sent_today (some c1exDb) false cstOff 3000 "X" "30_day" = true :=
  ((C1_dedup_query c1exDb cstOff 3000 "X" "30_day").1).mpr
    ⟨⟨"X", "30_day", 5, 10, 5, 50, 2000⟩, by decide, rfl, rfl, by decide⟩

/-- C5: code_bug evidence.  The per-ticker loop of
`run_real_time_monitoring` has no per-instrument exception handler, and
`update_latest_price` catches only `SQLAlchemyError`, so a `ValueError`
raised by `float()` on a malformed quote field escapes to the
cycle-level handler and aborts the whole cycle.  With active tickers
`A`, `B` and a malformed quote for `A` (`envBadA`), the cycle aborts
before visiting anyone: no iteration completes, no notification goes
out, and `B`'s quote is never persisted.  By contrast, when `A`'s fetch
merely fails (no quote, `envNoA`) — the failure mode the fetcher
reports as an error value — both tickers are visited and `B`'s quote
is persisted, showing that only the escaped exception breaks the
claimed isolation. -/
theorem C5_unhandled_exception_aborts_cycle :
    ((run_real_time_monitoring envBadA c5Db).aborted = true ∧
     (run_real_time_monitoring envBadA c5Db).visited = [] ∧
     (run_real_time_monitoring envBadA c5Db).notifs = [] ∧
     (run_real_time_monitoring envBadA c5Db).db.stock_latest = []) ∧
    ((run_real_time_monitoring envNoA c5Db).aborted = false ∧
     (run_real_time_monitoring envNoA c5Db).visited = ["A", "B"] ∧
     (run_real_time_monitoring envNoA c5Db).db.stock_latest =
       [⟨"B", some 5, Option.none, Option.none, Option.none, 3000⟩]) := by decide

/-- C7: (i) in `run_real_time_monitoring`, the final ledger is the
initial ledger plus **exactly one** AlertRecord per forwarded
condition — and this holds whatever the dispatch outcomes are, because
the records are written immediately before `send_alert` is called
("Always save alerts to database first"); (ii) `run_manual_alert_check`
never forwards a condition (its condition-building loop reads the
absent `price_differences` key, so the only save-after-dispatch code
path in the program is unreachable); (iii) no embedded store operation
ever updates or deletes an AlertRecord: each one either leaves
`alert_history` unchanged or appends to it. -/
theorem C7_ledger_append_only (env : CycleEnv) (db0 : DBState) :
    ((run_real_time_monitoring env db0).db.alert_history =
      db0.alert_history ++ recsOfNotifs env.nowLocal (run_real_time_monitoring env db0).notifs) ∧
    (∀ db1 : DBState, (run_manual_alert_check env db1).notifs = []) ∧
    (∀ (db : DBState) (t : String) (pd : PriceData) (se : Bool) (now : Int),
      (match update_latest_price db t pd se now with
       | .ok x => x.2.alert_history
       | .error _ => db.alert_history) = db.alert_history) ∧
    (∀ (db : DBState) (t : String) (data : List DailyRow),
      (insert_historical_data db t data).2.alert_history = db.alert_history) ∧
    (∀ (db : DBState) (t : String) (cn sec nts : Option String) (now : Int),
      (add_company_to_watchlist db t cn sec nts now).2.alert_history = db.alert_history) ∧
    (∀ (db : DBState) (t : String),
      (remove_company_from_watchlist db t).2.alert_history = db.alert_history) ∧
    (∀ (db : DBState) (t atype : String) (cp ap ad pdiff : ℚ) (now : Int),
      (save_alert_to_database db t atype cp ap ad pdiff now).2.alert_history =
        db.alert_history ++ [⟨t, atype, cp, ap, ad, pdiff, now⟩]) := by
  refine ⟨?_, ?_, ?_, fun _ _ _ => rfl, fun _ _ _ _ _ _ => rfl, fun _ _ => rfl,
    fun _ _ _ _ _ _ _ _ => rfl⟩
  · unfold run_real_time_monitoring
    by_cases h1 : (get_all_tickers db0).isEmpty = true
    · rw [if_pos h1]
      simp [recsOfNotifs]
    · rw [if_neg h1]
      by_cases h2 : (get_all_tickers db0).all
          (fun t => ((env.perTicker t).quote).isNone) = true
      · rw [if_pos h2]
        simp [recsOfNotifs]
      · rw [if_neg h2]
        exact runTickersAux_history env (get_all_tickers db0) db0 [] [] db0.alert_history
          (by simp [recsOfNotifs])
  · intro db1
    unfold run_manual_alert_check
    by_cases he : (get_all_tickers db1).isEmpty = true
    · rw [if_pos he]
    · rw [if_neg he]
      cases hu : manualUpdateAll env (get_all_tickers db1) db1 with
      | error dbA => rfl
      | ok db2 => simp only [manualLoop_id]
  · intro db t pd se now
    cases h : update_latest_price db t pd se now with
    | error e => rfl
    | ok x =>
      obtain ⟨b, db1⟩ := x
      exact update_latest_history db t pd se now b db1 h

end StockMarket
